import Mathlib

/-!
Verification of `jax/experimental/jax2iree/ir_builder.py`: a minimal MLIR
module builder (`Builder`), function builder (`FunctionBuilder`) and the
abstract-value-to-IR-type conversion.  The Python code drives external MLIR
python bindings; the MLIR objects it manipulates (types, function ops,
blocks, the context's type-interning pool) are embedded here as plain Lean
data, and each method of the two classes becomes a Lean function on that
data, translated line by line from the source.
-/

namespace IrBuilder

/-- Numpy dtypes as they appear on JAX abstract values (`aval.dtype`). -/
inductive DType where
  | float32
  | float64
  | int32
  | int64
  | bool_
  | bfloat16
  deriving DecidableEq

/-- MLIR value types reachable from `ir_builder.py`: `ir.F32Type`,
`ir.RankedTensorType` (dimension sizes stored as int64, with a negative
sentinel meaning dynamic) and `ir.UnrankedTensorType`. -/
inductive IRType where
  | f32
  | rankedTensor (shape : List Int) (elementType : IRType)
  | unrankedTensor (elementType : IRType)
  deriving DecidableEq

/-- MLIR's sentinel for a dynamic dimension size (`ShapedType::kDynamic`). -/
def kDynamic : Int := -(2 ^ 63)

/-- The MLIR `ir.FunctionType`: the signature attached to a `FuncOp`, with its
`.inputs` and `.results` accessors. -/
structure FunctionType where
  inputs : List IRType
  results : List IRType
  deriving DecidableEq

/-- An MLIR `ir.Value`; the builder only ever reads its `.type`. -/
structure Value where
  type : IRType
  deriving DecidableEq

/-- The only instruction `ir_builder.py` emits into a function body is
`std.ReturnOp(values)`. -/
inductive Operation where
  | returnOp (operands : List Value)
  deriving DecidableEq

/-- An MLIR block: block arguments plus the ordered instruction list. -/
structure Block where
  args : List Value
  ops : List Operation
  deriving DecidableEq

/-- A `builtin.FuncOp`: symbol name, the `"type"` attribute (a
`FunctionType`), and the body region's blocks (empty until
`add_entry_block`). -/
structure FuncOp where
  name : String
  ftype : FunctionType
  body : List Block
  deriving DecidableEq

/-- JAX abstract values as a closed hierarchy.  In `jax.core`,
`ShapedArray` is a subclass of `UnshapedArray`; the two `isinstance`
predicates below reproduce that subtyping. -/
inductive AbstractValue where
  | shapedArray (shape : List Nat) (dtype : DType)
  | unshapedArray (dtype : DType)
  | abstractToken
  | abstractUnit
  deriving DecidableEq

/-- Embeds `isinstance(aval, core.ShapedArray)`. -/
def AbstractValue.isShapedArray : AbstractValue → Bool
  | .shapedArray _ _ => true
  | _ => false

/-- Embeds `isinstance(aval, core.UnshapedArray)`: `ShapedArray` is a subclass of
`UnshapedArray`, so shaped arrays satisfy this predicate too. -/
def AbstractValue.isUnshapedArray : AbstractValue → Bool
  | .shapedArray _ _ => true
  | .unshapedArray _ => true
  | _ => false

/-- Rendering of an abstract value, standing in for Python `f"{aval}"`. -/
def AbstractValue.describe : AbstractValue → String
  | .shapedArray _ _ => "ShapedArray"
  | .unshapedArray _ => "UnshapedArray"
  | .abstractToken => "AbstractToken"
  | .abstractUnit => "AbstractUnit"

/-- Failures the builder can raise: the `NotImplementedError` of
`convert_aval_to_ir_type`, and the error MLIR raises when `t.rank` is
queried on a type that is not a ranked shaped type. -/
inductive BuilderError where
  | unsupportedConversion (aval : AbstractValue)
  | notRanked (t : IRType)
  deriving DecidableEq

/-- The message attached to each raised error; the Python source raises
`NotImplementedError(f"Unsupported AbstractValue conversion: \x7baval\x7d")`. -/
def BuilderError.message : BuilderError → String
  | .unsupportedConversion aval =>
      "Unsupported AbstractValue conversion: " ++ aval.describe
  | .notRanked _ => "not a ranked shaped type"

/-- Embeds `Builder.convert_dtype_to_ir_type`: the source maps every dtype to
`ir.F32Type` (marked `# TODO: Terrible.`). -/
def convert_dtype_to_ir_type (_dtype : DType) : IRType := .f32

/-- Embeds `Builder.convert_ir_type_to_dtype`: the source maps every IR type to
`np.float32` (marked `# TODO: Terrible.`). -/
def convert_ir_type_to_dtype (_t : IRType) : DType := .float32

/-- Embeds `Builder.convert_aval_to_ir_type`.  The source dispatches with
`isinstance(aval, core.ShapedArray)` before `isinstance(aval,
core.UnshapedArray)`; the match arms below are in that order, so a shaped
array (which satisfies both predicates) takes the ranked branch. -/
def convert_aval_to_ir_type (aval : AbstractValue) :
    Except BuilderError IRType :=
  match aval with
  | .shapedArray shape dtype =>
      Except.ok (.rankedTensor (shape.map Int.ofNat)
        (convert_dtype_to_ir_type dtype))
  | .unshapedArray dtype =>
      Except.ok (.unrankedTensor (convert_dtype_to_ir_type dtype))
  | other => Except.error (.unsupportedConversion other)

/-- The inner `get_dim` of `Builder.get_shaped_type_dims_list`:
`None if t.is_dynamic_dim(index) else t.get_dim_size(index)`. -/
def get_dim (shape : List Int) (index : Nat) : Option Int :=
  if shape.getD index 0 = kDynamic then none else some (shape.getD index 0)

/-- Embeds `Builder.get_shaped_type_dims_list`:
`[get_dim(i) for i in range(t.rank)]`.  Querying `.rank` on a type that is
not a ranked tensor fails inside the MLIR bindings; that failure is the
`NotRanked` error. -/
def get_shaped_type_dims_list (t : IRType) :
    Except BuilderError (List (Option Int)) :=
  match t with
  | .rankedTensor shape _ =>
      Except.ok ((List.range shape.length).map (get_dim shape))
  | _ => Except.error (.notRanked t)

/-- The state the builder mutates: the module body, an ordered list of the
functions appended so far. -/
structure BuilderState where
  module : List FuncOp
  deriving DecidableEq

/-- The fresh module of `Builder.__init__`. -/
def BuilderState.init : BuilderState := ⟨[]⟩

/-- A `FunctionBuilder`: it aliases one `func_op` inside the module (held
here by position), and its insertion point is the end of that function's
entry block. -/
structure FunctionBuilder where
  funcIndex : Nat
  deriving DecidableEq

/-- In-place update of the function at one position of the module body,
modelling Python mutation of an aliased `func_op`. -/
def setFunc : List FuncOp → Nat → (FuncOp → FuncOp) → List FuncOp
  | [], _, _ => []
  | f :: rest, 0, g => g f :: rest
  | f :: rest, i + 1, g => f :: setFunc rest i g

/-- Embeds `FuncOp.add_entry_block()`: appends the entry block, whose arguments
are fresh values typed by the function type's inputs. -/
def FuncOp.add_entry_block (f : FuncOp) : FuncOp :=
  { f with body := f.body ++ [⟨f.ftype.inputs.map Value.mk, []⟩] }

/-- Embeds `Builder.create_function` together with `FunctionBuilder.__init__`:
builds `ir.FunctionType.get(input_types, return_types)`, appends a
`builtin.FuncOp` at the module-level insertion point, then the
`FunctionBuilder` constructor calls `add_entry_block` on it and points its
insertion cursor at the end of that entry block. -/
def create_function (st : BuilderState) (name : String)
    (input_types : List IRType) (return_types : List IRType) :
    BuilderState × FunctionBuilder :=
  let ftype : FunctionType := ⟨input_types, return_types⟩
  let func_op : FuncOp := ⟨name, ftype, []⟩
  let module' := st.module ++ [func_op]
  let fb : FunctionBuilder := ⟨st.module.length⟩
  (⟨setFunc module' fb.funcIndex FuncOp.add_entry_block⟩, fb)

/-- Appends an operation at the end of the first block of the function's
body: the `FunctionBuilder`'s insertion point. -/
def FuncOp.appendOpToEntry (f : FuncOp) (op : Operation) : FuncOp :=
  match f.body with
  | [] => f
  | b :: rest => { f with body := { b with ops := b.ops ++ [op] } :: rest }

/-- Embeds `FunctionBuilder.emit_return(values, update_type)`: emits
`std.ReturnOp(values)` at the insertion point, then, when `update_type` is
set, overwrites the function's `"type"` attribute with
`ir.FunctionType.get(ftype.inputs, [v.type for v in values])`.  The source
performs no state tracking and raises nothing. -/
def emit_return (st : BuilderState) (fb : FunctionBuilder)
    (values : List Value) (update_type : Bool) : BuilderState :=
  let st₁ : BuilderState :=
    ⟨setFunc st.module fb.funcIndex
      (fun f => f.appendOpToEntry (.returnOp values))⟩
  if update_type then
    ⟨setFunc st₁.module fb.funcIndex
      (fun f =>
        { f with ftype := ⟨f.ftype.inputs, values.map Value.type⟩ })⟩
  else st₁

/-- Modelled from the spec: the MLIR `ir.Context` interns types, so
structurally equal types created in one context are one object.  The
context's pool lists the created types in creation order; a type's object
identity is its position in the pool.  (The context lives in the MLIR
bindings, outside `src/`.) -/
structure Context where
  pool : List IRType
  deriving DecidableEq

/-- Position of the first structurally equal type in the pool, if any. -/
def findIndex (t : IRType) : List IRType → Option Nat
  | [] => none
  | s :: rest => if s = t then some 0 else (findIndex t rest).map (· + 1)

/-- Modelled from the spec: type construction inside a context returns the
already-interned object when a structurally equal one exists, otherwise
creates and records a new one.  Returns the object's identity and the
updated context. -/
def Context.intern (ctx : Context) (t : IRType) : Nat × Context :=
  match findIndex t ctx.pool with
  | some i => (i, ctx)
  | none => (ctx.pool.length, ⟨ctx.pool ++ [t]⟩)

/-- Runs `convert_aval_to_ir_type` as executed inside a live context: the
structural conversion followed by context interning of the result. -/
def convert_aval_to_ir_type_interned (ctx : Context) (aval : AbstractValue) :
    Except BuilderError (Nat × Context) :=
  (convert_aval_to_ir_type aval).map ctx.intern


/-! ## Helper lemmas -/

theorem get_dim_cons_succ (a : Int) (s : List Int) (i : Nat) :
    get_dim (a :: s) (i + 1) = get_dim s i := by
  simp [get_dim, List.getD_cons_succ]

theorem get_dim_cons_zero (a : Int) (s : List Int) :
    get_dim (a :: s) 0 = if a = kDynamic then none else some a := by
  simp [get_dim, List.getD_cons_zero]

theorem dims_list_of_static (shape : List Int)
    (h : ∀ d ∈ shape, d ≠ kDynamic) :
    (List.range shape.length).map (get_dim shape) = shape.map some := by
  induction shape with
  | nil => rfl
  | cons a s ih =>
    have ha : a ≠ kDynamic := h a (List.mem_cons_self a s)
    have hs : ∀ d ∈ s, d ≠ kDynamic := fun d hd =>
      h d (List.mem_cons_of_mem a hd)
    rw [List.length_cons, List.range_succ_eq_map, List.map_cons,
      List.map_map, List.map_cons]
    have h1 : (List.range s.length).map (get_dim (a :: s) ∘ Nat.succ)
        = (List.range s.length).map (get_dim s) := by
      apply List.map_congr_left
      intro i _
      exact get_dim_cons_succ a s i
    rw [h1, ih hs, get_dim_cons_zero, if_neg ha]

/-- Default function used with `List.getD` when reading the module body. -/
def dummyFunc : FuncOp := ⟨"", ⟨[], []⟩, []⟩

theorem length_setFunc (l : List FuncOp) (i : Nat) (g : FuncOp → FuncOp) :
    (setFunc l i g).length = l.length := by
  induction l generalizing i with
  | nil => rfl
  | cons f rest ih =>
    cases i with
    | zero => rfl
    | succ j => simp [setFunc, ih]

theorem getD_setFunc_self (l : List FuncOp) (i : Nat) (g : FuncOp → FuncOp)
    (d : FuncOp) (h : i < l.length) :
    (setFunc l i g).getD i d = g (l.getD i d) := by
  induction l generalizing i with
  | nil => simp at h
  | cons f rest ih =>
    cases i with
    | zero => rfl
    | succ j =>
      simp only [setFunc, List.getD_cons_succ]
      exact ih j (by simpa using h)

theorem setFunc_append_self (l : List FuncOp) (f : FuncOp)
    (g : FuncOp → FuncOp) :
    setFunc (l ++ [f]) l.length g = l ++ [g f] := by
  induction l with
  | nil => rfl
  | cons a rest ih => simp [setFunc, ih]

/-! ## Claim theorems: the type converter -/

/-- C3: for every ranked abstract value with fully known shape
`(d0,...,dn)` and element kind `K`, `convert_aval_to_ir_type` produces a
ranked tensor type, and `get_shaped_type_dims_list` on that type
reproduces exactly the ordered sequence `(d0,...,dn)`, every entry a
static integer (`some`, never the dynamic sentinel). -/
theorem c3_ranked_shape_roundtrip (dims : List Nat) (K : DType) :
    convert_aval_to_ir_type (.shapedArray dims K)
        = Except.ok (.rankedTensor (dims.map Int.ofNat)
            (convert_dtype_to_ir_type K)) ∧
    get_shaped_type_dims_list
        (.rankedTensor (dims.map Int.ofNat) (convert_dtype_to_ir_type K))
        = Except.ok (dims.map fun d => some (Int.ofNat d)) := by
  refine ⟨rfl, ?_⟩
  have hstat : ∀ d ∈ dims.map Int.ofNat, d ≠ kDynamic := by
    intro d hd hcontra
    obtain ⟨n, _, rfl⟩ := List.mem_map.mp hd
    norm_num [kDynamic] at hcontra
    omega
  simp only [get_shaped_type_dims_list]
  rw [dims_list_of_static _ hstat, List.map_map]
  rfl

/-- C4: for every unranked abstract value, `convert_aval_to_ir_type`
yields an unranked tensor type carrying the mapped element kind, and
`get_shaped_type_dims_list` on that type fails with `NotRanked` rather
than returning a dimension list. -/
theorem c4_unranked_shape_query_fails (K : DType) :
    convert_aval_to_ir_type (.unshapedArray K)
        = Except.ok (.unrankedTensor (convert_dtype_to_ir_type K)) ∧
    get_shaped_type_dims_list (.unrankedTensor (convert_dtype_to_ir_type K))
        = Except.error
            (.notRanked (.unrankedTensor (convert_dtype_to_ir_type K))) :=
  ⟨rfl, rfl⟩

/-- C5: for every abstract value that is neither a `ShapedArray` nor an
`UnshapedArray`, `convert_aval_to_ir_type` produces no IR type and fails
with the `UnsupportedConversion` error, whose message names the offending
value. -/
theorem c5_unsupported_conversion (a : AbstractValue)
    (h1 : a.isShapedArray = false) (h2 : a.isUnshapedArray = false) :
    convert_aval_to_ir_type a
        = Except.error (.unsupportedConversion a) ∧
    (BuilderError.unsupportedConversion a).message
        = "Unsupported AbstractValue conversion: " ++ a.describe := by
  cases a <;>
    simp_all [AbstractValue.isShapedArray, AbstractValue.isUnshapedArray,
      convert_aval_to_ir_type, BuilderError.message]

/-- Witness for C5 at the concrete abstract value `AbstractToken`. -/
theorem c5_unsupported_conversion_witness :
    AbstractValue.isShapedArray .abstractToken = false ∧
    AbstractValue.isUnshapedArray .abstractToken = false ∧
    convert_aval_to_ir_type .abstractToken
        = Except.error (.unsupportedConversion .abstractToken) ∧
    (BuilderError.unsupportedConversion .abstractToken).message
        = "Unsupported AbstractValue conversion: AbstractToken" :=
  ⟨rfl, rfl,
    (c5_unsupported_conversion .abstractToken rfl rfl).1,
    by
      rw [(c5_unsupported_conversion .abstractToken rfl rfl).2]
      rfl⟩

/-- C8: the element-kind round trip is stable under iteration: for every
kind `K`, one application of `convert_ir_type_to_dtype ∘
convert_dtype_to_ir_type` reaches a fixed point (`float32` under the
placeholder mapping), so applying the pair again yields the same kind. -/
theorem c8_element_kind_roundtrip_stable (K : DType) :
    convert_ir_type_to_dtype (convert_dtype_to_ir_type
        (convert_ir_type_to_dtype (convert_dtype_to_ir_type K)))
      = convert_ir_type_to_dtype (convert_dtype_to_ir_type K) ∧
    convert_ir_type_to_dtype (convert_dtype_to_ir_type K) = .float32 :=
  ⟨rfl, rfl⟩

/-- C10: every ranked (fully shaped) abstract value also satisfies the
unranked-category `isinstance` test (`ShapedArray` is a subclass of
`UnshapedArray`), yet `convert_aval_to_ir_type` always yields a ranked
tensor type and never an unranked one: the ranked case has strict
dispatch precedence. -/
theorem c10_ranked_dispatch_precedence (shape : List Nat) (K : DType) :
    (AbstractValue.shapedArray shape K).isShapedArray = true ∧
    (AbstractValue.shapedArray shape K).isUnshapedArray = true ∧
    convert_aval_to_ir_type (.shapedArray shape K)
        = Except.ok (.rankedTensor (shape.map Int.ofNat)
            (convert_dtype_to_ir_type K)) ∧
    ∀ e, convert_aval_to_ir_type (.shapedArray shape K)
        ≠ Except.ok (.unrankedTensor e) := by
  refine ⟨rfl, rfl, rfl, fun e hcontra => ?_⟩
  simp [convert_aval_to_ir_type] at hcontra

theorem appendOpToEntry_of_body_cons (f : FuncOp) (b : Block)
    (rest : List Block) (op : Operation) (h : f.body = b :: rest) :
    f.appendOpToEntry op
      = { f with body := ⟨b.args, b.ops ++ [op]⟩ :: rest } := by
  obtain ⟨n, t, fbody⟩ := f
  change fbody = b :: rest at h
  subst h
  rfl

theorem getD_emit_return_true (st : BuilderState) (fb : FunctionBuilder)
    (values : List Value) (h : fb.funcIndex < st.module.length) :
    (emit_return st fb values true).module.getD fb.funcIndex dummyFunc
      = { (st.module.getD fb.funcIndex dummyFunc).appendOpToEntry
            (.returnOp values) with
          ftype := ⟨((st.module.getD fb.funcIndex dummyFunc).appendOpToEntry
              (.returnOp values)).ftype.inputs, values.map Value.type⟩ } := by
  show (setFunc (setFunc st.module fb.funcIndex
      (fun f => f.appendOpToEntry (.returnOp values))) fb.funcIndex
      (fun f => { f with
        ftype := ⟨f.ftype.inputs, values.map Value.type⟩ })).getD
      fb.funcIndex dummyFunc = _
  rw [getD_setFunc_self _ _ _ _ (by rw [length_setFunc]; exact h),
    getD_setFunc_self _ _ _ _ h]

theorem getD_emit_return_false (st : BuilderState) (fb : FunctionBuilder)
    (values : List Value) (h : fb.funcIndex < st.module.length) :
    (emit_return st fb values false).module.getD fb.funcIndex dummyFunc
      = (st.module.getD fb.funcIndex dummyFunc).appendOpToEntry
          (.returnOp values) := by
  show (setFunc st.module fb.funcIndex
      (fun f => f.appendOpToEntry (.returnOp values))).getD
      fb.funcIndex dummyFunc = _
  rw [getD_setFunc_self _ _ _ _ h]

theorem length_emit_return (st : BuilderState) (fb : FunctionBuilder)
    (values : List Value) (u : Bool) :
    (emit_return st fb values u).module.length = st.module.length := by
  cases u
  · show (setFunc st.module _ _).length = _
    rw [length_setFunc]
  · show (setFunc (setFunc st.module _ _) _ _).length = _
    rw [length_setFunc, length_setFunc]

/-! ## Claim theorems: the module and function builders -/

/-- C6: every `create_function` call appends exactly one `FuncOp` at the
end of the module body, whose signature is built from exactly the given
ordered input and result types; the returned `FunctionBuilder` points at
that function, whose single (entry) block has parameters typed by the
input types and an empty instruction list — the insertion cursor, which
`emit_return` uses, is the end of that entry block. -/
theorem c6_declare_function_appends (st : BuilderState) (name : String)
    (ins outs : List IRType) :
    (create_function st name ins outs).1.module
        = st.module ++ [⟨name, ⟨ins, outs⟩, [⟨ins.map Value.mk, []⟩]⟩] ∧
    (create_function st name ins outs).2.funcIndex = st.module.length ∧
    (ins.map Value.mk).map Value.type = ins := by
  refine ⟨?_, rfl, ?_⟩
  · show setFunc (st.module ++ [⟨name, ⟨ins, outs⟩, []⟩]) st.module.length
        FuncOp.add_entry_block = _
    rw [setFunc_append_self]
    rfl
  · rw [List.map_map]
    exact List.map_id ins

/-- C1: on any builder state where the function builder's target exists
and its entry block is open, `emit_return values` with signature update
enabled appends one return instruction carrying exactly `values` to the
entry block and replaces the function's declared result types with the
ordered list of the values' actual types, keeping only the declared
inputs and discarding the result types given at declaration time. -/
theorem c1_emit_return_replaces_result_types (st : BuilderState)
    (fb : FunctionBuilder) (values : List Value) (b : Block)
    (rest : List Block) (h : fb.funcIndex < st.module.length)
    (hbody : (st.module.getD fb.funcIndex dummyFunc).body = b :: rest) :
    (emit_return st fb values true).module.getD fb.funcIndex dummyFunc
      = { name := (st.module.getD fb.funcIndex dummyFunc).name,
          ftype := ⟨(st.module.getD fb.funcIndex dummyFunc).ftype.inputs,
                    values.map Value.type⟩,
          body := ⟨b.args, b.ops ++ [Operation.returnOp values]⟩ :: rest } := by
  rw [getD_emit_return_true st fb values h,
    appendOpToEntry_of_body_cons _ _ _ _ hbody]

/-- Witness for C1: a function declared with inputs `[f32, f32]` and
result types `[f32]`, returning one value of type `tensor<4xf32>`, ends
with result types `[tensor<4xf32>]` — the declared `[f32]` is gone. -/
theorem c1_emit_return_replaces_result_types_witness :
    (emit_return (create_function BuilderState.init "f"
          [.f32, .f32] [.f32]).1
        (create_function BuilderState.init "f" [.f32, .f32] [.f32]).2
        [⟨.rankedTensor [4] .f32⟩] true).module.getD 0 dummyFunc
      = { name := "f",
          ftype := ⟨[.f32, .f32], [.rankedTensor [4] .f32]⟩,
          body := [⟨[⟨.f32⟩, ⟨.f32⟩],
                    [.returnOp [⟨.rankedTensor [4] .f32⟩]]⟩] } := by
  have happ := c1_emit_return_replaces_result_types
    (create_function BuilderState.init "f" [.f32, .f32] [.f32]).1
    (create_function BuilderState.init "f" [.f32, .f32] [.f32]).2
    [⟨.rankedTensor [4] .f32⟩] ⟨[⟨.f32⟩, ⟨.f32⟩], []⟩ []
    (by decide) (by decide)
  exact happ.trans (by decide)

/-- C7: `emit_return values` with signature update disabled still appends
the return instruction carrying exactly `values` to the entry block, but
leaves the function's declared signature — input types, result types and
name — exactly as before the call, whatever the values' types are. -/
theorem c7_frame_when_update_disabled (st : BuilderState)
    (fb : FunctionBuilder) (values : List Value) (b : Block)
    (rest : List Block) (h : fb.funcIndex < st.module.length)
    (hbody : (st.module.getD fb.funcIndex dummyFunc).body = b :: rest) :
    (emit_return st fb values false).module.getD fb.funcIndex dummyFunc
      = { name := (st.module.getD fb.funcIndex dummyFunc).name,
          ftype := (st.module.getD fb.funcIndex dummyFunc).ftype,
          body := ⟨b.args, b.ops ++ [Operation.returnOp values]⟩ :: rest } := by
  rw [getD_emit_return_false st fb values h,
    appendOpToEntry_of_body_cons _ _ _ _ hbody]

/-- Witness for C7: returning a `tensor<4xf32>` value with the update
disabled leaves the declared signature `([f32], [f32])` untouched even
though the returned type does not match the declared result type. -/
theorem c7_frame_when_update_disabled_witness :
    (emit_return (create_function BuilderState.init "f" [.f32] [.f32]).1
        (create_function BuilderState.init "f" [.f32] [.f32]).2
        [⟨.rankedTensor [4] .f32⟩] false).module.getD 0 dummyFunc
      = { name := "f",
          ftype := ⟨[.f32], [.f32]⟩,
          body := [⟨[⟨.f32⟩],
                    [.returnOp [⟨.rankedTensor [4] .f32⟩]]⟩] } := by
  have happ := c7_frame_when_update_disabled
    (create_function BuilderState.init "f" [.f32] [.f32]).1
    (create_function BuilderState.init "f" [.f32] [.f32]).2
    [⟨.rankedTensor [4] .f32⟩] ⟨[⟨.f32⟩], []⟩ []
    (by decide) (by decide)
  exact happ.trans (by decide)

/-- Counterexample to C2: `emit_return` does no Open/Closed tracking and
cannot fail.  On a freshly declared function, two successive
`emit_return` calls both succeed, and the entry block then holds two
return instructions — the body does not retain only the first return. -/
theorem c2_counterexample :
    ((emit_return
          (emit_return (create_function BuilderState.init "f" [.f32] [.f32]).1
            (create_function BuilderState.init "f" [.f32] [.f32]).2
            [⟨.f32⟩] true)
          (create_function BuilderState.init "f" [.f32] [.f32]).2
          [⟨.f32⟩] true).module.getD 0 dummyFunc).body.headD ⟨[], []⟩
      = ⟨[⟨.f32⟩], [.returnOp [⟨.f32⟩], .returnOp [⟨.f32⟩]]⟩ ∧
    ¬ (((emit_return
          (emit_return (create_function BuilderState.init "f" [.f32] [.f32]).1
            (create_function BuilderState.init "f" [.f32] [.f32]).2
            [⟨.f32⟩] true)
          (create_function BuilderState.init "f" [.f32] [.f32]).2
          [⟨.f32⟩] true).module.getD 0 dummyFunc).body.headD ⟨[], []⟩).ops
      = [.returnOp [⟨.f32⟩]] := by decide

/-- C2 as amended: a second `emit_return` on the same function builder
does not fail — the code has no Open/Closed state — and it appends a
second return instruction after the first one, overwriting the declared
result types again with the second call's value types. -/
theorem c2_amended_second_return_appends (st : BuilderState)
    (fb : FunctionBuilder) (v₁ v₂ : List Value) (b : Block)
    (rest : List Block) (h : fb.funcIndex < st.module.length)
    (hbody : (st.module.getD fb.funcIndex dummyFunc).body = b :: rest) :
    (emit_return (emit_return st fb v₁ true) fb v₂ true).module.getD
        fb.funcIndex dummyFunc
      = { name := (st.module.getD fb.funcIndex dummyFunc).name,
          ftype := ⟨(st.module.getD fb.funcIndex dummyFunc).ftype.inputs,
                    v₂.map Value.type⟩,
          body := ⟨b.args, b.ops ++ [Operation.returnOp v₁,
                    Operation.returnOp v₂]⟩ :: rest } := by
  have h₂ : fb.funcIndex < (emit_return st fb v₁ true).module.length := by
    rw [length_emit_return]
    exact h
  rw [getD_emit_return_true _ fb v₂ h₂, getD_emit_return_true st fb v₁ h,
    appendOpToEntry_of_body_cons _ _ _ _ hbody]
  simp [FuncOp.appendOpToEntry]

/-- Witness for the amended C2 on a concrete module with one function. -/
theorem c2_amended_second_return_appends_witness :
    (emit_return
        (emit_return (create_function BuilderState.init "f" [.f32] [.f32]).1
          (create_function BuilderState.init "f" [.f32] [.f32]).2
          [⟨.f32⟩] true)
        (create_function BuilderState.init "f" [.f32] [.f32]).2
        [⟨.f32⟩] true).module.getD 0 dummyFunc
      = { name := "f",
          ftype := ⟨[.f32], [.f32]⟩,
          body := [⟨[⟨.f32⟩], [.returnOp [⟨.f32⟩],
                    .returnOp [⟨.f32⟩]]⟩] } := by
  have happ := c2_amended_second_return_appends
    (create_function BuilderState.init "f" [.f32] [.f32]).1
    (create_function BuilderState.init "f" [.f32] [.f32]).2
    [⟨.f32⟩] [⟨.f32⟩] ⟨[⟨.f32⟩], []⟩ []
    (by decide) (by decide)
  exact happ.trans (by decide)

theorem findIndex_append_self (t : IRType) (l : List IRType)
    (h : findIndex t l = none) : findIndex t (l ++ [t]) = some l.length := by
  induction l with
  | nil => simp [findIndex]
  | cons a rest ih =>
    by_cases ha : a = t
    · rw [findIndex, if_pos ha] at h
      exact absurd h (by simp)
    · rw [findIndex, if_neg ha] at h
      have h' : findIndex t rest = none := by
        cases hr : findIndex t rest with
        | none => rfl
        | some j => rw [hr] at h; exact absurd h (by simp)
      rw [List.cons_append, findIndex, if_neg ha, ih h']
      rfl

theorem intern_intern (ctx : Context) (t : IRType) :
    (ctx.intern t).2.intern t = ctx.intern t := by
  unfold Context.intern
  cases hf : findIndex t ctx.pool with
  | some i => simp [hf]
  | none => simp [hf, findIndex_append_self t ctx.pool hf]

/-- C9: converting two abstract values with identical element kind and
identical shape inside the same context yields the same interned type
object: after the first conversion interns its result, the second
conversion returns the very same identity and leaves the context's
intern pool unchanged. -/
theorem c9_interned_type_identity (ctx : Context) (shape : List Nat)
    (K : DType) (i₁ : Nat) (ctx₁ : Context)
    (h : convert_aval_to_ir_type_interned ctx (.shapedArray shape K)
          = Except.ok (i₁, ctx₁)) :
    convert_aval_to_ir_type_interned ctx₁ (.shapedArray shape K)
      = Except.ok (i₁, ctx₁) := by
  have hpair : ctx.intern (.rankedTensor (shape.map Int.ofNat) .f32)
      = (i₁, ctx₁) := Except.ok.inj h
  show Except.ok (ctx₁.intern (.rankedTensor (shape.map Int.ofNat) .f32))
      = Except.ok (i₁, ctx₁)
  have h1 : i₁ = (ctx.intern (.rankedTensor (shape.map Int.ofNat) .f32)).1 := by
    rw [hpair]
  have h2 : ctx₁ = (ctx.intern (.rankedTensor (shape.map Int.ofNat) .f32)).2 := by
    rw [hpair]
  rw [h1, h2, intern_intern]

/-- Witness for C9: in a fresh context, converting the abstract value
`ShapedArray([2,3], float32)` twice yields identity `0` both times, and
the second conversion does not grow the pool. -/
theorem c9_interned_type_identity_witness :
    convert_aval_to_ir_type_interned ⟨[]⟩ (.shapedArray [2, 3] .float32)
        = Except.ok (0, ⟨[.rankedTensor [2, 3] .f32]⟩) ∧
    convert_aval_to_ir_type_interned ⟨[.rankedTensor [2, 3] .f32]⟩
        (.shapedArray [2, 3] .float32)
        = Except.ok (0, ⟨[.rankedTensor [2, 3] .f32]⟩) :=
  ⟨rfl, c9_interned_type_identity ⟨[]⟩ [2, 3] .float32 0
      ⟨[.rankedTensor [2, 3] .f32]⟩ rfl⟩

end IrBuilder
